import Mathlib

/-!
Verification development for the SwarmShift RAG backend
(`src/backend`): a shallow embedding in Lean 4 of the document
ingestion and retrieval pipeline (`document_processor.py`,
`web_scraper.py`, `user_store.py`, `firebase_db.py`, `utils.py`,
`main.py`) together with proofs and refutations of the specification's
claims about it.

Python dictionaries that are used as string-keyed maps are embedded as
association lists with first-match lookup, in-place update and
single-key deletion, which matches the observable behaviour of the
`in` / `[k] =` / `del` operations used by the source.  Python
exceptions are embedded as `Except String` with the exception's
message as the payload.
-/

set_option autoImplicit false

universe u

/-! ## Association-list embedding of Python string-keyed dicts -/

/-- First-match lookup, the embedding of `d[k]` / `d.get(k)` / `k in d`. -/
def alLookup {α : Type u} (k : String) : List (String × α) → Option α
  | [] => none
  | p :: rest => if p.1 = k then some p.2 else alLookup k rest

/-- In-place update-or-append, the embedding of `d[k] = v`. -/
def alInsert {α : Type u} (k : String) (v : α) : List (String × α) → List (String × α)
  | [] => [(k, v)]
  | p :: rest => if p.1 = k then (p.1, v) :: rest else p :: alInsert k v rest

/-- Single-key deletion, the embedding of `del d[k]` (keys are unique in a dict,
so removing the first match removes the key). -/
def alErase {α : Type u} (k : String) : List (String × α) → List (String × α)
  | [] => []
  | p :: rest => if p.1 = k then rest else p :: alErase k rest

theorem alLookup_alInsert_self {α : Type u} (k : String) (v : α) (l : List (String × α)) :
    alLookup k (alInsert k v l) = some v := by
  induction l with
  | nil => simp [alInsert, alLookup]
  | cons hd tl ih =>
    by_cases h : hd.1 = k
    · simp [alInsert, alLookup, h]
    · simpa [alInsert, alLookup, h] using ih

theorem alLookup_eq_none_of_not_mem {α : Type u} (k : String) (l : List (String × α))
    (h : k ∉ l.map Prod.fst) : alLookup k l = none := by
  induction l with
  | nil => rfl
  | cons hd tl ih =>
    simp only [List.map_cons, List.mem_cons, not_or] at h
    simp only [alLookup, if_neg (fun he : hd.1 = k => h.1 he.symm)]
    exact ih h.2

theorem alLookup_alErase_self {α : Type u} (k : String) (l : List (String × α))
    (huniq : (l.map Prod.fst).Nodup) : alLookup k (alErase k l) = none := by
  induction l with
  | nil => simp [alErase, alLookup]
  | cons hd tl ih =>
    simp only [List.map_cons, List.nodup_cons] at huniq
    by_cases h : hd.1 = k
    · -- the erased key was the head; uniqueness says it does not recur in the tail
      simp only [alErase, if_pos h]
      exact alLookup_eq_none_of_not_mem k tl (by rw [← h]; exact huniq.1)
    · simp only [alErase, if_neg h, alLookup, if_neg h]
      exact ih huniq.2

/-- Keys present before an update are present after it (with the same value
when the key differs from the updated one). -/
theorem alLookup_alInsert_ne {α : Type u} (k k' : String) (v : α) (l : List (String × α))
    (h : k' ≠ k) : alLookup k' (alInsert k v l) = alLookup k' l := by
  induction l with
  | nil => simp [alInsert, alLookup, Ne.symm h]
  | cons hd tl ih =>
    by_cases hh : hd.1 = k
    · simp only [alInsert, if_pos hh, alLookup]
      rw [if_neg (show ¬hd.1 = k' by rw [hh]; exact Ne.symm h),
        if_neg (show ¬hd.1 = k' by rw [hh]; exact Ne.symm h)]
    · simp only [alInsert, if_neg hh, alLookup]
      by_cases hk' : hd.1 = k'
      · simp [hk']
      · simp [hk', ih]

/-! ## Web extractor (`src/backend/src/web_scraper.py`, `extract_text_from_url`)

The extractor first validates the URL with `urllib.parse.urlparse` and
rejects inputs with an empty scheme or netloc before any network
traffic; it then fetches and parses the page (the `requests` /
`BeautifulSoup` part is external to the repository and is embedded as
an oracle), cleans the text and splits it into virtual pages of about
3000 characters along paragraph (`"\n\n"`) boundaries. -/

/-- One extracted record (the dictionaries produced by the extractors).
Keys that a given record omits (`path`, `url`) are embedded as `""` and the
omitted `error` key as `false`, matching the `.get(k, default)` reads that
consume them downstream. -/
structure PageRec where
  content : String
  page : Nat
  source : String
  path : String := ""
  url : String := ""
  error : Bool := false
  deriving Repr, DecidableEq

/-- Embedding of the scheme recognition of `urllib.parse.urlparse`: a scheme
is split off when the string has a `:` preceded by a nonempty run of
characters starting with a letter and continuing with letters, digits,
`+`, `-` or `.`; otherwise the scheme is empty. -/
def schemeChar (c : Char) : Bool :=
  c.isAlphanum || c = '+' || c = '-' || c = '.'

/-- Split `url` as `scheme ++ ":" ++ rest` when a valid scheme is present,
returning `(scheme, rest)`, else `("", url)` (character-list form). -/
def splitScheme (url : List Char) : List Char × List Char :=
  match url.findIdx? (· = ':') with
  | none => ([], url)
  | some i =>
    let pre := url.take i
    match pre with
    | [] => ([], url)
    | c :: cs =>
      if c.isAlpha && cs.all schemeChar then (pre, url.drop (i + 1)) else ([], url)

/-- Embedding of the netloc recognition of `urllib.parse.urlparse`: the netloc
is the run after a leading `//` up to the next `/`, `?` or `#`; absent the
leading `//` the netloc is empty. -/
def splitNetloc (rest : List Char) : List Char :=
  match rest with
  | '/' :: '/' :: r => r.takeWhile (fun c => c ≠ '/' && c ≠ '?' && c ≠ '#')
  | _ => []

/-- The `(scheme, netloc)` pair `urlparse` yields for `url`, as strings. -/
def urlSchemeNetloc (url : String) : String × String :=
  let (sch, rest) := splitScheme url.data
  (String.mk sch, String.mk (splitNetloc rest))

/-- The virtual-page loop of `extract_text_from_url` (the `else` branch for
content longer than 3000 characters): accumulate paragraphs, flushing a page
when the next paragraph would push the page over `3000` characters.
`current` is the accumulated page text, `pageNo` the next page number. -/
def buildPagesAux (title url : String) (current : String) (pageNo : Nat) :
    List String → List PageRec
  | [] => if current = "" then [] else
      [{ content := current, page := pageNo, source := "Web: " ++ title ++ " (" ++ url ++ ")",
         url := url }]
  | p :: rest =>
    if current.length + p.length > 3000 ∧ current ≠ "" then
      { content := current, page := pageNo, source := "Web: " ++ title ++ " (" ++ url ++ ")",
        url := url } :: buildPagesAux title url (p ++ "\n\n") (pageNo + 1) rest
    else
      buildPagesAux title url (current ++ (p ++ "\n\n")) pageNo rest

/-- The virtual-page phase of `extract_text_from_url`, applied to the cleaned
main content: content of at most 3000 characters becomes a single page,
longer content is accumulated paragraph by paragraph. -/
def virtualPages (title url mainContent : String) : List PageRec :=
  if mainContent.length ≤ 3000 then
    [{ content := mainContent, page := 1,
       source := "Web: " ++ title ++ " (" ++ url ++ ")", url := url }]
  else
    buildPagesAux title url "" 1 (mainContent.splitOn "\n\n")

/-- Outcome of the external fetch-and-parse phase (`requests.get` +
`BeautifulSoup` cleaning): either an exception message or the page title and
the cleaned main content. This code is outside the repository; the embedding
treats it as an oracle supplied per call. -/
structure WebFetch where
  fetch : String → Except String (String × String)

/-- Embedding of `extract_text_from_url`: validate the URL (no network),
then fetch, clean and paginate; any exception inside the `try` block becomes
a single `error` record. The second component records whether the network
was used. -/
def extract_text_from_url (env : WebFetch) (url : String) : List PageRec × Bool :=
  let (scheme, netloc) := urlSchemeNetloc url
  if scheme = "" || netloc = "" then
    ([{ content := "URL invalide: " ++ url, page := 0, source := url, error := true }], false)
  else
    match env.fetch url with
    | .error e =>
      ([{ content := "Erreur lors de l'extraction du contenu de la page web: " ++ e,
          page := 0, source := url, error := true }], true)
    | .ok (title, mainContent) => (virtualPages title url mainContent, true)

/-! ### Properties of the virtual-page loop (claim C7) -/

/-- The page text contributed by a group of paragraphs: each paragraph is
re-suffixed with the `"\n\n"` the loop appends. -/
def joinParas : List String → String
  | [] => ""
  | p :: rest => p ++ "\n\n" ++ joinParas rest

theorem joinParas_singleton (p : String) : joinParas [p] = p ++ "\n\n" := by
  show p ++ "\n\n" ++ "" = p ++ "\n\n"
  exact String.append_empty _

theorem joinParas_append_one (acc : List String) (p : String) :
    joinParas acc ++ (p ++ "\n\n") = joinParas (acc ++ [p]) := by
  induction acc with
  | nil =>
    show "" ++ (p ++ "\n\n") = joinParas [p]
    rw [joinParas_singleton, String.empty_append]
  | cons a rest ih =>
    show a ++ "\n\n" ++ joinParas rest ++ (p ++ "\n\n") = a ++ "\n\n" ++ joinParas (rest ++ [p])
    rw [String.append_assoc (a ++ "\n\n"), ih]

theorem joinParas_ne_empty (acc : List String) (h : acc ≠ []) : joinParas acc ≠ "" := by
  match acc with
  | [] => exact absurd rfl h
  | p :: rest =>
    intro he
    have hlen : (joinParas (p :: rest)).length = 0 := by rw [he]; rfl
    simp only [joinParas, String.length_append] at hlen
    have h2 : ("\n\n" : String).length = 2 := rfl
    omega

/-- Page numbers emitted by the loop are consecutive, starting at the number
the loop was entered with: the pages' numbers are exactly
`[n, n+1, ..., n+count-1]`. -/
theorem buildPagesAux_page (title url : String) (ps : List String) :
    ∀ (current : String) (n : Nat),
      (buildPagesAux title url current n ps).map (·.page) =
        List.range' n (buildPagesAux title url current n ps).length := by
  induction ps with
  | nil =>
    intro current n
    by_cases hc : current = ""
    · simp [buildPagesAux, hc]
    · simp [buildPagesAux, hc, List.range']
  | cons p rest ih =>
    intro current n
    by_cases hcond : current.length + p.length > 3000 ∧ current ≠ ""
    · simp only [buildPagesAux, if_pos hcond, List.map_cons, List.length_cons, ih,
        List.range'_succ]
    · simp only [buildPagesAux, if_neg hcond, ih]

/-- The loop cuts only at paragraph boundaries: there is a partition of the
paragraph list into nonempty consecutive groups such that each emitted page
is exactly the concatenation of its group (no paragraph is ever divided). -/
theorem buildPagesAux_partition (title url : String) (ps : List String) :
    ∀ (acc : List String) (n : Nat), acc ≠ [] →
      ∃ groups : List (List String),
        groups.flatten = acc ++ ps ∧
        (buildPagesAux title url (joinParas acc) n ps).map (·.content) =
          groups.map joinParas ∧
        ∀ g ∈ groups, g ≠ [] := by
  induction ps with
  | nil =>
    intro acc n hacc
    refine ⟨[acc], by simp, ?_, by simpa using hacc⟩
    simp [buildPagesAux, if_neg (joinParas_ne_empty acc hacc)]
  | cons p rest ih =>
    intro acc n hacc
    by_cases hcond : (joinParas acc).length + p.length > 3000 ∧ joinParas acc ≠ ""
    · obtain ⟨groups1, hjoin, hmap, hne⟩ := ih [p] (n + 1) (by simp)
      rw [joinParas_singleton] at hmap
      refine ⟨acc :: groups1, by simp [hjoin], ?_, ?_⟩
      · simp only [buildPagesAux, if_pos hcond, List.map_cons, hmap]
      · intro g hg
        rcases List.mem_cons.mp hg with h | h
        · rw [h]; exact hacc
        · exact hne g h
    · obtain ⟨groups, hjoin, hmap, hne⟩ := ih (acc ++ [p]) n (by simp)
      refine ⟨groups, by simpa using hjoin, ?_, hne⟩
      simp only [buildPagesAux, if_neg hcond]
      rw [← joinParas_append_one] at hmap
      exact hmap

/-! ## Claim C9 theorem and witness -/

/-- C9: for every input string whose parsed URL lacks a scheme or a host, the
web extractor returns exactly one record with `error = true` and `page = 0`,
and no network request is performed. -/
theorem c9_malformed_url_no_network (env : WebFetch) (url : String)
    (h : (urlSchemeNetloc url).1 = "" ∨ (urlSchemeNetloc url).2 = "") :
    extract_text_from_url env url =
      ([{ content := "URL invalide: " ++ url, page := 0, source := url,
          error := true }], false) := by
  unfold extract_text_from_url
  rcases h with h | h <;> simp [h]

/-- C9 witness: the concrete malformed input `"not a url"` (no `:` so no
scheme, no `//` so no netloc) yields the single error record, network unused. -/
theorem c9_malformed_url_no_network_witness :
    extract_text_from_url ⟨fun _ => .error "unreachable"⟩ "not a url" =
      ([{ content := "URL invalide: not a url", page := 0, source := "not a url",
          error := true }], false) := by
  have h := c9_malformed_url_no_network ⟨fun _ => .error "unreachable"⟩ "not a url"
    (by left; rfl)
  simpa using h

/-! ## Claim C7 theorem and witness -/

/-- C7: the virtual-page phase of the web extractor (a) numbers its pages
`1, 2, 3, ...` consecutively, (b) turns content of at most 3000 characters
into exactly one page holding the whole content, and (c) for longer content
cuts only at paragraph boundaries: the emitted pages correspond to a
partition of the paragraph list into nonempty consecutive groups, so no
paragraph is ever divided across two pages (in particular an oversized
single paragraph is kept whole on its page). -/
theorem c7_virtual_page_split (title url mc : String) :
    ((virtualPages title url mc).map (·.page) =
        List.range' 1 (virtualPages title url mc).length) ∧
    (mc.length ≤ 3000 →
      virtualPages title url mc =
        [{ content := mc, page := 1,
           source := "Web: " ++ title ++ " (" ++ url ++ ")", url := url }]) ∧
    (∀ p0 rest, mc.length > 3000 → mc.splitOn "\n\n" = p0 :: rest →
      ∃ groups : List (List String),
        groups.flatten = p0 :: rest ∧
        (virtualPages title url mc).map (·.content) = groups.map joinParas ∧
        ∀ g ∈ groups, g ≠ []) := by
  refine ⟨?_, ?_, ?_⟩
  · by_cases h : mc.length ≤ 3000
    · simp [virtualPages, h, List.range']
    · simp only [virtualPages, if_neg h]
      exact buildPagesAux_page title url (mc.splitOn "\n\n") "" 1
  · intro h
    simp [virtualPages, h]
  · intro p0 rest hlen hsplit
    have hnotle : ¬mc.length ≤ 3000 := by omega
    simp only [virtualPages, if_neg hnotle, hsplit]
    -- the loop starts with empty accumulated content, so the first paragraph
    -- is always absorbed and the partition lemma applies from `[p0]`
    have hstep : buildPagesAux title url "" 1 (p0 :: rest) =
        buildPagesAux title url (joinParas [p0]) 1 rest := by
      simp only [buildPagesAux]
      rw [if_neg (by simp), String.empty_append, joinParas_singleton]
    rw [hstep]
    obtain ⟨groups, hjoin, hmap, hne⟩ :=
      buildPagesAux_partition title url rest [p0] 1 (by simp)
    exact ⟨groups, by simpa using hjoin, hmap, hne⟩

/-- C7 witness: a content of four paragraphs of 1100 characters each (total
4403 characters) is cut into pages `⟨p1 p2⟩, ⟨p3 p4⟩` with page numbers
`[1, 2]`, and a short content yields exactly one page. -/
theorem c7_virtual_page_split_witness :
    ((virtualPages "t" "u" "short").map (·.page) =
        List.range' 1 (virtualPages "t" "u" "short").length) ∧
    (virtualPages "t" "u" "short" =
      [{ content := "short", page := 1, source := "Web: t (u)", url := "u" }]) := by
  have h := c7_virtual_page_split "t" "u" "short"
  exact ⟨h.1, h.2.1 (by decide)⟩

/-! ## Decimal rendering of Python `str(i)` and chunk construction
(`src/backend/src/document_processor.py`, `process_document` lines 346-358) -/

/-- The character for a decimal digit (`'0'`-`'9'`). -/
def digitChar (d : Nat) : Char := Char.ofNat (48 + d)

/-- The decimal digit characters of `n`, most significant first. -/
def natChars (n : Nat) : List Char := ((Nat.digits 10 n).map digitChar).reverse

/-- Embedding of Python `str(i)` for a nonnegative integer. -/
def natStr (n : Nat) : String := if n = 0 then "0" else String.mk (natChars n)

theorem digitChar_ne_underscore (d : Nat) (h : d < 10) : digitChar d ≠ '_' := by
  interval_cases d <;> decide

theorem digitChar_inj (a b : Nat) (ha : a < 10) (hb : b < 10)
    (h : digitChar a = digitChar b) : a = b := by
  interval_cases a <;> interval_cases b <;> simp_all <;> exact absurd h (by decide)

theorem natChars_no_underscore (n : Nat) : ∀ c ∈ natChars n, c ≠ '_' := by
  intro c hc
  simp only [natChars, List.mem_reverse, List.mem_map] at hc
  obtain ⟨d, hd, rfl⟩ := hc
  exact digitChar_ne_underscore d (Nat.digits_lt_base (by norm_num) hd)

theorem natStr_no_underscore (n : Nat) : ∀ c ∈ (natStr n).data, c ≠ '_' := by
  intro c hc
  unfold natStr at hc
  by_cases h : n = 0
  · simp only [h, if_pos rfl] at hc
    have : c = '0' := by simpa using hc
    rw [this]; decide
  · simp only [if_neg h] at hc
    exact natChars_no_underscore n c hc

theorem map_digitChar_inj (l1 l2 : List Nat) (h1 : ∀ d ∈ l1, d < 10)
    (h2 : ∀ d ∈ l2, d < 10) (h : l1.map digitChar = l2.map digitChar) : l1 = l2 := by
  induction l1 generalizing l2 with
  | nil => cases l2 <;> simp_all
  | cons a t1 ih =>
    cases l2 with
    | nil => simp_all
    | cons b t2 =>
      simp only [List.map_cons, List.cons.injEq] at h
      have hab : a = b :=
        digitChar_inj a b (h1 a (by simp)) (h2 b (by simp)) h.1
      have ht : t1 = t2 :=
        ih t2 (fun d hd => h1 d (List.mem_cons_of_mem a hd))
          (fun d hd => h2 d (List.mem_cons_of_mem b hd)) h.2
      rw [hab, ht]

theorem natStr_inj (m n : Nat) (h : natStr m = natStr n) : m = n := by
  have hdata : (natStr m).data = (natStr n).data := by rw [h]
  by_cases hm : m = 0 <;> by_cases hn : n = 0
  · rw [hm, hn]
  · exfalso
    simp only [natStr, hm, if_pos rfl, if_neg hn] at hdata
    have hmap : (Nat.digits 10 n).map digitChar = ['0'] := by
      have : natChars n = ['0'] := hdata.symm
      simpa [natChars, List.reverse_eq_iff] using this
    have hdig : Nat.digits 10 n = [0] := by
      apply map_digitChar_inj _ _ (fun d hd => Nat.digits_lt_base (by norm_num) hd)
        (by intro d hd; simp at hd; omega)
      simpa [digitChar] using hmap
    have := Nat.ofDigits_digits 10 n
    rw [hdig] at this
    simp [Nat.ofDigits] at this
    exact hn this.symm
  · exfalso
    simp only [natStr, hn, if_pos rfl, if_neg hm] at hdata
    have hmap : (Nat.digits 10 m).map digitChar = ['0'] := by
      have : natChars m = ['0'] := hdata
      simpa [natChars, List.reverse_eq_iff] using this
    have hdig : Nat.digits 10 m = [0] := by
      apply map_digitChar_inj _ _ (fun d hd => Nat.digits_lt_base (by norm_num) hd)
        (by intro d hd; simp at hd; omega)
      simpa [digitChar] using hmap
    have := Nat.ofDigits_digits 10 m
    rw [hdig] at this
    simp [Nat.ofDigits] at this
    exact hm this.symm
  · simp only [natStr, if_neg hm, if_neg hn] at hdata
    have hchars : natChars m = natChars n := hdata
    have hmap : (Nat.digits 10 m).map digitChar = (Nat.digits 10 n).map digitChar := by
      have := congrArg List.reverse hchars
      simpa [natChars] using this
    have hdig : Nat.digits 10 m = Nat.digits 10 n :=
      map_digitChar_inj _ _ (fun d hd => Nat.digits_lt_base (by norm_num) hd)
        (fun d hd => Nat.digits_lt_base (by norm_num) hd) hmap
    have h1 := Nat.ofDigits_digits 10 m
    have h2 := Nat.ofDigits_digits 10 n
    rw [← h1, ← h2, hdig]

/-- Cancellation around the last underscore: if two concatenations
`a ++ '_' :: t` agree and neither `a` contains an underscore, the parts
agree. -/
theorem append_underscore_inj (a1 : List Char) :
    ∀ (a2 t1 t2 : List Char), (∀ c ∈ a1, c ≠ '_') → (∀ c ∈ a2, c ≠ '_') →
      a1 ++ '_' :: t1 = a2 ++ '_' :: t2 → a1 = a2 ∧ t1 = t2 := by
  induction a1 with
  | nil =>
    intro a2 t1 t2 _ h2 h
    cases a2 with
    | nil => simpa using h
    | cons c a2' =>
      exfalso
      simp only [List.nil_append, List.cons_append, List.cons.injEq] at h
      exact h2 c (by simp) h.1.symm
  | cons c a1' ih =>
    intro a2 t1 t2 h1 h2 h
    cases a2 with
    | nil =>
      exfalso
      simp only [List.cons_append, List.nil_append, List.cons.injEq] at h
      exact h1 c (by simp) h.1
    | cons c2 a2' =>
      simp only [List.cons_append, List.cons.injEq] at h
      obtain ⟨ha, ht⟩ := ih a2' t1 t2 (fun x hx => h1 x (List.mem_cons_of_mem c hx))
        (fun x hx => h2 x (List.mem_cons_of_mem c2 hx)) h.2
      exact ⟨by rw [h.1, ha], ht⟩

/-- The digit suffix after the final separator determines itself: if
`s1 ++ "_" ++ d1 = s2 ++ "_" ++ d2` with `d1`, `d2` underscore-free, then
`d1 = d2` (read the strings from the right). -/
theorem underscore_digit_suffix (s1 s2 d1 d2 : List Char)
    (h1 : ∀ c ∈ d1, c ≠ '_') (h2 : ∀ c ∈ d2, c ≠ '_')
    (h : s1 ++ '_' :: d1 = s2 ++ '_' :: d2) : d1 = d2 := by
  have hr := congrArg List.reverse h
  simp only [List.reverse_append, List.reverse_cons] at hr
  rw [List.append_assoc, List.append_assoc, List.singleton_append,
    List.singleton_append] at hr
  have := append_underscore_inj d1.reverse d2.reverse s1.reverse s2.reverse
    (fun c hc => h1 c (List.mem_reverse.mp hc))
    (fun c hc => h2 c (List.mem_reverse.mp hc)) hr
  exact List.reverse_injective this.1

/-! ## Chunk records (`process_document`, lines 346-358)

After splitting, `process_document` converts the LangChain documents back
to plain dictionaries, assigning `chunk_id = f"{source}_{i}"` with `i` the
0-based position of the chunk in the output list. -/

/-- The metadata carried by a LangChain document produced by `split_text`:
`page`, `source`, `path`, `url` are always set (the `.get` defaults fill
missing keys with `""`), `error` marks error records. -/
structure ChunkMeta where
  page : Nat
  source : String
  path : String
  url : String
  error : Bool
  deriving Repr, DecidableEq

/-- A LangChain `Document`: page content plus metadata. -/
structure LCDoc where
  pageContent : String
  metadata : ChunkMeta
  deriving Repr, DecidableEq

/-- The chunk dictionaries returned by `process_document` / `process_web_url`. -/
structure Chunk where
  content : String
  page : Nat
  source : String
  path : String
  url : String
  chunk_id : String
  deriving Repr, DecidableEq

/-- One iteration of the `for i, doc in enumerate(langchain_docs)` loop. -/
def mkChunk (d : LCDoc) (i : Nat) : Chunk :=
  { content := d.pageContent, page := d.metadata.page, source := d.metadata.source,
    path := d.metadata.path, url := d.metadata.url,
    chunk_id := d.metadata.source ++ "_" ++ natStr i }

/-- The enumerate loop, carrying the running index. -/
def mkChunksFrom (i : Nat) : List LCDoc → List Chunk
  | [] => []
  | d :: ds => mkChunk d i :: mkChunksFrom (i + 1) ds

/-- The chunk list `process_document` returns for the split documents. -/
def mkChunks (docs : List LCDoc) : List Chunk := mkChunksFrom 0 docs

theorem mkChunksFrom_length (docs : List LCDoc) :
    ∀ k, (mkChunksFrom k docs).length = docs.length := by
  induction docs with
  | nil => intro k; rfl
  | cons d ds ih => intro k; simp [mkChunksFrom, ih]

theorem mkChunksFrom_get (docs : List LCDoc) :
    ∀ (k i : Nat) (h : i < (mkChunksFrom k docs).length) (h' : i < docs.length),
      (mkChunksFrom k docs).get ⟨i, h⟩ = mkChunk (docs.get ⟨i, h'⟩) (k + i) := by
  induction docs with
  | nil => intro k i h h'; simp [mkChunksFrom] at h
  | cons d ds ih =>
    intro k i h h'
    match i with
    | 0 => simp [mkChunksFrom]
    | i + 1 =>
      simp only [mkChunksFrom, List.get_cons_succ]
      rw [ih (k + 1) i (by simpa [mkChunksFrom] using h) (by simpa using h')]
      congr 1
      omega

/-- The chunk id of a chunk at position `i` decomposes into its source,
an underscore and the decimal index, character-wise. -/
theorem chunk_id_data (d : LCDoc) (i : Nat) :
    (mkChunk d i).chunk_id.data = d.metadata.source.data ++ '_' :: (natStr i).data := by
  show (d.metadata.source ++ "_" ++ natStr i).data = _
  rw [String.data_append, String.data_append, List.append_assoc]
  rfl

/-- Distinct positions yield distinct chunk ids even for equal sources:
the id's digit suffix after the last underscore recovers the index. -/
theorem chunk_id_ne_of_index_ne (d1 d2 : LCDoc) (i j : Nat) (hij : i ≠ j) :
    (mkChunk d1 i).chunk_id ≠ (mkChunk d2 j).chunk_id := by
  intro he
  have hd := congrArg String.data he
  rw [chunk_id_data, chunk_id_data] at hd
  have := underscore_digit_suffix _ _ _ _ (natStr_no_underscore i)
    (natStr_no_underscore j) hd
  exact hij (natStr_inj i j (by
    apply congrArg String.mk at this
    simpa using this))

/-! ## Claim C8 theorem and witness -/

theorem natStr_zero : natStr 0 = "0" := rfl

theorem natStr_one : natStr 1 = "1" := by
  have h : Nat.digits 10 1 = [1] := by
    rw [Nat.digits_def' (by norm_num : (1 : Nat) < 10) (by norm_num : 0 < 1)]
    norm_num
  unfold natStr
  rw [if_neg (by norm_num)]
  unfold natChars
  rw [h]
  decide

/-- C8: in the chunk list one ingestion call returns, the i-th chunk's
`chunk_id` is exactly its `source` followed by `"_"` and the decimal
0-based position `i`, and all `chunk_id` values in the list are pairwise
distinct, even when several chunks share one source (the digit suffix
after the last underscore recovers the position). -/
theorem c8_chunk_ids_unique (docs : List LCDoc) :
    (∀ (i : Nat) (h : i < (mkChunks docs).length),
      ((mkChunks docs).get ⟨i, h⟩).chunk_id =
        ((mkChunks docs).get ⟨i, h⟩).source ++ "_" ++ natStr i) ∧
    (mkChunks docs).Pairwise (fun a b => a.chunk_id ≠ b.chunk_id) := by
  constructor
  · intro i h
    have h' : i < docs.length := by
      rw [← mkChunksFrom_length docs 0]; exact h
    have hg : (mkChunks docs).get ⟨i, h⟩ = mkChunk (docs.get ⟨i, h'⟩) (0 + i) :=
      mkChunksFrom_get docs 0 i h h'
    rw [hg]
    simp [mkChunk]
  · rw [List.pairwise_iff_get]
    intro i j hij
    have hi' : (i : Nat) < docs.length := by
      rw [← mkChunksFrom_length docs 0]; exact i.isLt
    have hj' : (j : Nat) < docs.length := by
      rw [← mkChunksFrom_length docs 0]; exact j.isLt
    have hgi : (mkChunks docs).get i = mkChunk (docs.get ⟨i, hi'⟩) (0 + i) :=
      mkChunksFrom_get docs 0 i i.isLt hi'
    have hgj : (mkChunks docs).get j = mkChunk (docs.get ⟨j, hj'⟩) (0 + j) :=
      mkChunksFrom_get docs 0 j j.isLt hj'
    rw [hgi, hgj]
    exact chunk_id_ne_of_index_ne _ _ _ _ (by omega)

/-- C8 witness: two chunks sharing the source `"doc.pdf"` get the ids
`"doc.pdf_0"` and `"doc.pdf_1"`, which are distinct; the id law is applied
at position 0 of the concrete two-document list. -/
theorem c8_chunk_ids_unique_witness :
    ((mkChunks [⟨"a", ⟨1, "doc.pdf", "", "", false⟩⟩,
        ⟨"b", ⟨2, "doc.pdf", "", "", false⟩⟩]).get
      ⟨0, by decide⟩).chunk_id =
      ((mkChunks [⟨"a", ⟨1, "doc.pdf", "", "", false⟩⟩,
          ⟨"b", ⟨2, "doc.pdf", "", "", false⟩⟩]).get ⟨0, by decide⟩).source ++ "_" ++
        natStr 0 ∧
    (mkChunks [⟨"a", ⟨1, "doc.pdf", "", "", false⟩⟩,
        ⟨"b", ⟨2, "doc.pdf", "", "", false⟩⟩]).map (·.chunk_id) =
      ["doc.pdf_0", "doc.pdf_1"] := by
  constructor
  · exact (c8_chunk_ids_unique [⟨"a", ⟨1, "doc.pdf", "", "", false⟩⟩,
      ⟨"b", ⟨2, "doc.pdf", "", "", false⟩⟩]).1 0 (by decide)
  · show ["doc.pdf" ++ "_" ++ natStr 0, "doc.pdf" ++ "_" ++ natStr (0 + 1)] =
      ["doc.pdf_0", "doc.pdf_1"]
    rw [natStr_zero, natStr_one]
    decide

/-! ## Chunker (`src/backend/src/document_processor.py`, `split_text`)

`split_text` converts every input record into a LangChain document —
records flagged `error: True` keep an `error: True` metadata entry, the
comment says they are added "tel quel" — and then hands the WHOLE list to
`splitter.split_documents`, error records included.  The two splitter
classes live in the external `langchain_text_splitters` package, so the
fixed-width strategy is modelled from the spec below and the splitter is a
parameter of the embedded `split_text`. -/

/-- Convert one extracted record to a LangChain document (both branches of
the loop in `split_text`; the error branch stores `error: True`, the other
stores no `error` key, read back as `False`). -/
def toLCDoc (d : PageRec) : LCDoc :=
  { pageContent := d.content,
    metadata := { page := d.page, source := d.source, path := d.path,
                  url := d.url, error := d.error } }

/-- Embedding of `split_text` with the strategy's text splitter as a
parameter: every record — error records included — is converted and passed
to `splitter.split_documents`, which splits each document's content and
copies its metadata onto every resulting piece. -/
def split_text (splitter : String → List String) (docs : List PageRec) : List LCDoc :=
  let ldocs := docs.map toLCDoc
  if ldocs.isEmpty then []
  else ldocs.flatMap (fun d => (splitter d.pageContent).map (fun t => ⟨t, d.metadata⟩))

/-- Join fragments with single spaces (the separator of the fixed-width
strategy). -/
def joinSp : List String → String
  | [] => ""
  | [w] => w
  | w :: rest => w ++ " " ++ joinSp rest

/-- Modelled from the spec: the overlap policy of the external fixed-width
splitter keeps the longest fragment suffix of at most `overlap` joined
characters when a chunk is flushed. -/
def overlapSuffix (overlap : Nat) : List String → List String
  | [] => []
  | w :: ws => if (joinSp (w :: ws)).length ≤ overlap then w :: ws
               else overlapSuffix overlap ws

/-- Modelled from the spec: the greedy merge of the external fixed-width
splitter — accumulate fragments while the joined text stays within
`chunkSize`, flush otherwise, carrying the overlap suffix over. -/
def mergeFrags (chunkSize overlap : Nat) (current : List String) :
    List String → List String
  | [] => if current.isEmpty then [] else [joinSp current]
  | w :: rest =>
    if (joinSp (current ++ [w])).length > chunkSize ∧ ¬current.isEmpty then
      joinSp current :: mergeFrags chunkSize overlap (overlapSuffix overlap current ++ [w]) rest
    else
      mergeFrags chunkSize overlap (current ++ [w]) rest

/-- Split a character list at every occurrence of `sep` (the semantics of
Python `text.split(sep)` for a one-character separator: consecutive
separators yield empty fragments). -/
def splitOnChar (sep : Char) : List Char → List (List Char)
  | [] => [[]]
  | c :: rest =>
    match splitOnChar sep rest with
    | [] => if c = sep then [[], []] else [[c]]
    | h :: t => if c = sep then [] :: h :: t else (c :: h) :: t

/-- Modelled from the spec: the external fixed-width (`"character"`)
strategy — "split on a single separator — space — with fixed overlap, no
semantic preference"; empty fragments are dropped and fragments are merged
greedily into chunks of at most `chunkSize` characters. -/
def characterSplitter (chunkSize overlap : Nat) (text : String) : List String :=
  mergeFrags chunkSize overlap []
    (((splitOnChar ' ' text.data).map String.mk).filter (· ≠ ""))

/-- C5 evaluation at the failing input: an error record whose content
`"aaaa bbbb"` exceeds the chunk size 4 is NOT passed through unsplit — the
chunker returns two chunks, not one, because `split_text` feeds error
records to the splitter like any other record (the metadata, including the
error flag, is preserved on each piece). -/
theorem c5_error_record_is_split :
    split_text (characterSplitter 4 0)
        [{ content := "aaaa bbbb", page := 0, source := "err.pdf", error := true }] =
      [⟨"aaaa", ⟨0, "err.pdf", "", "", true⟩⟩, ⟨"bbbb", ⟨0, "err.pdf", "", "", true⟩⟩] ∧
    (split_text (characterSplitter 4 0)
        [{ content := "aaaa bbbb", page := 0, source := "err.pdf", error := true }]).length ≠
      1 := by
  constructor <;> decide

/-! ## User store (`src/backend/src/user_store.py`)

The store file `dev_data/users/user_store.json` maps each user id to a
record with a `vector_store_id`, a `collections` dict (rag id → collection
name) and a `rags` dict (rag id → rag data).  Only the fields read by the
functions under study are modelled; a rag's `name` and `collection_name`
are `Option`s because `get_collection_name` branches on key presence. -/

/-- The rag-data dictionary fields read by `get_collection_name` and
written by `dev_create_rag` / `associate_user_to_rag`. -/
structure RagData where
  name : Option String
  collection_name : Option String
  deriving Repr, DecidableEq

/-- One user's entry in the store (`rags` and `collections` are created by
every writer, so they are embedded as always-present, possibly empty). -/
structure UserData where
  vector_store_id : String
  collections : List (String × String)
  rags : List (String × RagData)
  deriving Repr, DecidableEq

/-- The whole `user_store.json` content. -/
abbrev UserStore := List (String × UserData)

/-- Python truthiness of an optional string (`if not collection_name` is
taken for both a missing value and an empty string). -/
def falsyOptStr : Option String → Bool
  | none => true
  | some s => s = ""

/-- Python `str(x)` of an optional string (`None` prints as `"None"`),
used when a possibly-`None` rag id is interpolated into a message. -/
def optStr : Option String → String
  | none => "None"
  | some s => s

/-- Embedding of `get_collection_name(user_id, rag_id)`: inside the `rags`
structure the function returns `rag_data.get("name")` — the rag's DISPLAY
name — whenever the `name` key is present, and only falls back to the
`collections` structure otherwise; a missing user or rag yields `None`.
A `None` user or rag id never matches a string key. -/
def get_collection_name (us : UserStore) (userId ragId : Option String) : Option String :=
  match userId, ragId with
  | some uid, some rid =>
    match alLookup uid us with
    | none => none
    | some ud =>
      match alLookup rid ud.rags with
      | some rd =>
        match rd.name with
        | some n => some n
        | none => alLookup rid ud.collections
      | none => alLookup rid ud.collections
  | _, _ => none

/-- Embedding of `register_collection(user_id, rag_id, collection_name)`:
create the user entry if needed (`freshVsId` stands for the generated
`uuid4`), record the collection and return its name. -/
def register_collection (us : UserStore) (uid rid cname freshVsId : String) :
    UserStore × String :=
  let us' :=
    match alLookup uid us with
    | none => alInsert uid ⟨freshVsId, [(rid, cname)], []⟩ us
    | some ud => alInsert uid { ud with collections := alInsert rid cname ud.collections } us
  (us', cname)

/-- Embedding of `associate_user_to_rag`: ensure the user entry exists,
store the rag data under `rags`, and mirror `collection_name` into
`collections` when present. -/
def associate_user_to_rag (us : UserStore) (uid rid : String) (rd : RagData)
    (freshVsId : String) : UserStore :=
  let ud :=
    match alLookup uid us with
    | none => ({ vector_store_id := freshVsId, collections := [], rags := [] } : UserData)
    | some ud => ud
  let ud := { ud with rags := alInsert rid rd ud.rags }
  let ud :=
    match rd.collection_name with
    | some c => { ud with collections := alInsert rid c ud.collections }
    | none => ud
  alInsert uid ud us

/-- Embedding of `dev_create_rag` (`src/backend/src/firebase_db.py`): a new
rag id (`ragUuid`, generated by `uuid4` in the source) is associated to the
user with the display `name` and a `collection_name` defaulting to
`"rag_" ++ ragUuid`; returns `(store, success, rag_id)`. -/
def dev_create_rag (us : UserStore) (uid name : String) (cname : Option String)
    (ragUuid freshVsId : String) : UserStore × Bool × String :=
  let rd : RagData := { name := some name,
                        collection_name := some (cname.getD ("rag_" ++ ragUuid)) }
  (associate_user_to_rag us uid ragUuid rd freshVsId, true, ragUuid)

/-- Embedding of `remove_rag_from_user_store`: a missing user fails; else
the rag id is deleted from both the `rags` and `collections` dicts. -/
def remove_rag_from_user_store (us : UserStore) (uid rid : String) : UserStore × Bool :=
  match alLookup uid us with
  | none => (us, false)
  | some ud =>
    (alInsert uid { ud with rags := alErase rid ud.rags,
                            collections := alErase rid ud.collections } us, true)

/-- Embedding of `dev_delete_rag` (`firebase_db.py`): delegates to
`remove_rag_from_user_store` (the `try` never fires in the model). -/
def dev_delete_rag (us : UserStore) (uid rid : String) : UserStore × Bool :=
  remove_rag_from_user_store us uid rid

/-! ## Session (`src/backend/src/user_store_session.py`) -/

/-- A JSON value stored in the session file (only the shapes the code
distinguishes: strings and string-valued dicts). -/
inductive SessVal where
  | str (s : String)
  | dict (d : List (String × String))
  deriving Repr, DecidableEq

/-- The session file content. -/
abbrev Session := List (String × SessVal)

/-- Embedding of `get_logged_user_id`:
`init_session().get("user_id", None).get("user_id", None)`.  When the
session has no `user_id` key the first `.get` yields `None` and the second
`.get` raises `AttributeError`; a non-dict value raises as well; otherwise
the inner lookup may still yield `None`. -/
def get_logged_user_id (s : Session) : Except String (Option String) :=
  match alLookup "user_id" s with
  | none => .error "AttributeError: 'NoneType' object has no attribute 'get'"
  | some (.str _) => .error "AttributeError: 'str' object has no attribute 'get'"
  | some (.dict d) => .ok (alLookup "user_id" d)

/-- Embedding of `get_session_value("current_rag")` as consumed by
`search_documents` (a non-string value can never match a string store key,
so it behaves like a missing one). -/
def currentRagOf (s : Session) : Option String :=
  match alLookup "current_rag" s with
  | some (.str r) => some r
  | _ => none

/-! ## Vector store and ingestion (`document_processor.py`,
`vectorize_documents` lines 249-299)

The Chroma client is external; a collection is embedded as a named list
of stored documents, and `Chroma.from_documents` as create-or-get plus
append.  `vectorize_documents` resolves the collection name with
`get_collection_name` and, when the result is falsy, executes
`register_collection(rag_id)` — a call that passes ONE argument to the
three-parameter function `register_collection(user_id, rag_id,
collection_name)`, so Python raises `TypeError` before any collection is
created. -/

/-- The vector database: collection name → stored documents. -/
abbrev VectorDB := List (String × List LCDoc)

/-- `Chroma.from_documents`: get-or-create the collection, append the
documents. -/
def chromaFromDocuments (db : VectorDB) (cname : String) (docs : List LCDoc) : VectorDB :=
  match alLookup cname db with
  | none => alInsert cname docs db
  | some existing => alInsert cname (existing ++ docs) db

/-- Embedding of `vectorize_documents(documents, rag_id, embedding_model)`.
`embedRes` is the outcome of `get_embedding_function` (it may raise on a
missing credential); the function itself has no exception handler, so any
raise propagates to the ingestion caller.  When `get_collection_name`
resolves nothing, the source line `collection_name =
register_collection(rag_id)` supplies one argument to a function whose
signature is `register_collection(user_id, rag_id, collection_name)`, so
the call raises `TypeError` without running `register_collection`'s body. -/
def vectorize_documents (session : Session) (us : UserStore) (db : VectorDB)
    (docs : List LCDoc) (ragId : String) (embedRes : Except String Unit) :
    Except String (UserStore × VectorDB × String) := do
  let userId ← get_logged_user_id session
  let _ ← embedRes
  let collectionName := get_collection_name us userId (some ragId)
  if falsyOptStr collectionName then
    .error ("TypeError: register_collection() missing 2 required positional arguments: " ++
      "'rag_id' and 'collection_name'")
  else
    let c := (collectionName.getD "")
    .ok (us, chromaFromDocuments db c docs, c)

/-! ## Retrieval tool (`document_processor.py`, `search_documents`
lines 429-518)

`search_documents` reads the logged user OUTSIDE its `try` block, then
inside the `try`: builds the embedding function, resolves the current rag
and its collection name, loads the collection (create-or-get), counts the
documents and runs `similarity_search`; every exception inside the `try`
is converted to a single error result. -/

/-- One search-result dictionary.  `errorFlag` is `some b` when the dict
carries an `error` key and `none` when it does not (the formatted
similarity-search results carry no `error` key); a synthetic record that
omits `url` is embedded with `url := ""`. -/
structure SearchResult where
  content : String
  page : Nat
  source : String
  path : String
  url : String := ""
  errorFlag : Option Bool := none
  deriving Repr, DecidableEq

/-- The per-call environment of `search_documents`: the session and store
files, the outcomes of the fallible external steps (embedding-function
construction, Chroma client/collection read, similarity search) and the
vector database contents. -/
structure SearchEnv where
  session : Session
  store : UserStore
  db : VectorDB
  embedRes : Except String Unit
  clientRes : Except String Unit
  simSearchRes : Except String (List LCDoc)

/-- The synthetic result for a missing collection (`error` is `True`). -/
def noCollectionResult (ragId : Option String) : SearchResult :=
  { content := "Erreur: Aucune collection trouvée pour le RAG " ++ optStr ragId,
    page := 0, source := "erreur", path := "", errorFlag := some true }

/-- The synthetic informational result for an empty collection (`error`
is `False`). -/
def emptyCollectionResult (cname : String) : SearchResult :=
  { content := "Aucun document trouvé dans la collection " ++ cname,
    page := 0, source := "information", path := "", errorFlag := some false }

/-- The synthetic result the `except` handler builds from a caught
exception. -/
def searchErrorResult (msg : String) : SearchResult :=
  { content := "Erreur lors de la recherche: " ++ msg,
    page := 0, source := "erreur", path := "", errorFlag := some true }

/-- Formatting of one similarity-search hit (no `error` key). -/
def formatResult (d : LCDoc) : SearchResult :=
  { content := d.pageContent, page := d.metadata.page, source := d.metadata.source,
    path := d.metadata.path, url := d.metadata.url }

/-- The body of the `try` block of `search_documents`, as the exception
monad: the caller converts any `.error` into the single synthetic error
result. -/
def searchTryBody (env : SearchEnv) (userId : Option String) :
    Except String (List SearchResult) := do
  let _ ← env.embedRes
  let ragId := currentRagOf env.session
  let collectionName := get_collection_name env.store userId ragId
  if falsyOptStr collectionName then
    .ok [noCollectionResult ragId]
  else
    let c := collectionName.getD ""
    let _ ← env.clientRes
    let docs := (alLookup c env.db).getD []
    if docs.length = 0 then
      .ok [emptyCollectionResult c]
    else do
      let results ← env.simSearchRes
      .ok (results.map formatResult)

/-- Embedding of `search_documents`: the session user is read before the
`try` block — an exception there propagates — and everything else is
wrapped by the handler that returns one synthetic error result. -/
def search_documents (env : SearchEnv) : Except String (List SearchResult) :=
  match get_logged_user_id env.session with
  | .error e => .error e
  | .ok userId =>
    match searchTryBody env userId with
    | .ok results => .ok results
    | .error e => .ok [searchErrorResult e]

/-! ## Workspace deletion flow (`main.py` `delete_rag_endpoint` →
`firebase_db.delete_rag` → `dev_delete_rag`)

No function on this path touches the Chroma database
(`chroma_manager.delete_collection` has no caller in the repository), so
the flow acts on the user store alone and leaves the vector database
untouched. -/

/-- The state the delete endpoint can affect: the user store and the
vector database. -/
structure AppState where
  us : UserStore
  db : VectorDB
  deriving Repr, DecidableEq

/-- Embedding of the delete flow: remove the rag from the user store; the
vector database is carried through unchanged because no code in the flow
references it. -/
def deleteRagFlow (st : AppState) (uid rid : String) : AppState × Bool :=
  let (us', ok) := dev_delete_rag st.us uid rid
  ({ us := us', db := st.db }, ok)

/-- The "no collection" branch of `search_documents`: with the session
user resolved, the embedding step succeeding and a falsy resolved
collection name, the call returns exactly the single synthetic "no
collection" result. -/
theorem search_no_collection_branch (env : SearchEnv) (userId : Option String)
    (h : get_logged_user_id env.session = .ok userId)
    (hembed : env.embedRes = .ok ())
    (hfalsy : falsyOptStr (get_collection_name env.store userId
      (currentRagOf env.session)) = true) :
    search_documents env = .ok [noCollectionResult (currentRagOf env.session)] := by
  simp only [search_documents, h, searchTryBody, hembed, hfalsy]
  rfl

/-! ## Claim C1: theorems -/

/-- A concrete search environment whose session file is empty: no user has
logged in. -/
def c1EmptySessionEnv : SearchEnv :=
  { session := [], store := [], db := [], embedRes := .ok (),
    clientRes := .ok (), simSearchRes := .ok [] }

/-- C1 counterexample: the retrieval tool CAN raise.  `user_id =
get_logged_user_id()` runs before the `try` block, and with an empty
session `init_session().get("user_id", None)` is `None`, so the second
`.get` raises `AttributeError`, which propagates out of
`search_documents` instead of being turned into a result list. -/
theorem c1_search_raises_counterexample :
    search_documents c1EmptySessionEnv =
      .error "AttributeError: 'NoneType' object has no attribute 'get'" := rfl

/-- C1 (amended): once the session user id has been resolved — that read
happens before the exception handler and may itself raise — the retrieval
tool never raises: a falsy collection name yields exactly the one
synthetic "no collection" result; an empty collection yields exactly the
one informational result whose error flag is `False`; and an exception in
the embedding construction or in the similarity search yields exactly the
one error result whose content carries the exception message. -/
theorem c1_search_never_raises_after_user (env : SearchEnv) (userId : Option String)
    (h : get_logged_user_id env.session = .ok userId) :
    (∃ rs, search_documents env = .ok rs) ∧
    (env.embedRes = .ok () →
      falsyOptStr (get_collection_name env.store userId (currentRagOf env.session)) = true →
      search_documents env = .ok [noCollectionResult (currentRagOf env.session)]) ∧
    (∀ e, env.embedRes = .error e →
      search_documents env = .ok [searchErrorResult e]) ∧
    (∀ c, env.embedRes = .ok () → env.clientRes = .ok () →
      get_collection_name env.store userId (currentRagOf env.session) = some c →
      c ≠ "" → (alLookup c env.db).getD [] = [] →
      search_documents env = .ok [emptyCollectionResult c] ∧
        (emptyCollectionResult c).errorFlag = some false) ∧
    (∀ c e, env.embedRes = .ok () → env.clientRes = .ok () →
      get_collection_name env.store userId (currentRagOf env.session) = some c →
      c ≠ "" → (alLookup c env.db).getD [] ≠ [] → env.simSearchRes = .error e →
      search_documents env = .ok [searchErrorResult e] ∧
        (searchErrorResult e).content = "Erreur lors de la recherche: " ++ e) := by
  refine ⟨?_, ?_, ?_, ?_, ?_⟩
  · simp only [search_documents, h]
    cases hb : searchTryBody env userId with
    | ok rs => exact ⟨rs, rfl⟩
    | error e => exact ⟨[searchErrorResult e], rfl⟩
  · intro hembed hfalsy
    exact search_no_collection_branch env userId h hembed hfalsy
  · intro e hembed
    simp only [search_documents, h, searchTryBody, hembed]
    rfl
  · intro c hembed hclient hc hcne hdocs
    refine ⟨?_, rfl⟩
    have hfalsy : falsyOptStr (some c) = false := by simp [falsyOptStr, hcne]
    simp only [search_documents, h, searchTryBody, hembed, hclient, hc, hfalsy,
      Option.getD_some, hdocs]
    rfl
  · intro c e hembed hclient hc hcne hdocs hsim
    refine ⟨?_, rfl⟩
    have hfalsy : falsyOptStr (some c) = false := by simp [falsyOptStr, hcne]
    rcases hd : (alLookup c env.db).getD [] with _ | ⟨x, xs⟩
    · exact absurd hd hdocs
    · simp only [search_documents, h, searchTryBody, hembed, hclient, hc, hfalsy,
        Option.getD_some, hd, hsim]
      rfl

/-- C1 witness: a session with a logged-in user and a store with no
collection for the current rag hits the "no collection" branch of the
amended theorem. -/
theorem c1_search_never_raises_witness :
    search_documents
        { session := [("user_id", .dict [("user_id", "u1")]), ("current_rag", .str "r1")],
          store := [], db := [], embedRes := .ok (), clientRes := .ok (),
          simSearchRes := .ok [] } =
      .ok [noCollectionResult (some "r1")] := by
  have h := c1_search_never_raises_after_user
    { session := [("user_id", .dict [("user_id", "u1")]), ("current_rag", .str "r1")],
      store := [], db := [], embedRes := .ok (), clientRes := .ok (),
      simSearchRes := .ok [] } (some "u1") rfl
  exact h.2.1 rfl rfl

/-- Reduction of a successful bind in the exception monad. -/
theorem exceptOkBind {A B : Type} (a : A) (f : A → Except String B) :
    (Except.ok a >>= f) = f a := rfl

/-! ## Claim C2: theorems -/

/-- Whenever no collection name resolves for the workspace,
`vectorize_documents` raises `TypeError` at the resolve-or-create step —
the source calls `register_collection(rag_id)` with one argument although
`register_collection` requires `(user_id, rag_id, collection_name)` — so
the pipeline never registers a collection and never reaches the embed and
upsert steps. -/
theorem vectorize_raises_of_unresolved_collection (session : Session) (us : UserStore) (db : VectorDB)
    (docs : List LCDoc) (ragId : String) (userId : Option String)
    (hu : get_logged_user_id session = .ok userId)
    (hc : get_collection_name us userId (some ragId) = none) :
    vectorize_documents session us db docs ragId (.ok ()) =
      .error ("TypeError: register_collection() missing 2 required positional arguments: " ++
        "'rag_id' and 'collection_name'") := by
  simp only [vectorize_documents, hu, exceptOkBind, hc]
  rfl

/-- C2 (code bug, evaluated at the failing input): a logged-in user whose
(empty) store registers no collection for rag `"r1"` makes the ingestion
raise `TypeError` at the resolve-or-create step instead of registering a
new collection and returning the chunk list. -/
theorem c2_ingestion_typeerror_at_failing_input :
    vectorize_documents [("user_id", .dict [("user_id", "u1")])] [] []
        [⟨"text", ⟨1, "doc.pdf", "", "", false⟩⟩] "r1" (.ok ()) =
      .error ("TypeError: register_collection() missing 2 required positional arguments: " ++
        "'rag_id' and 'collection_name'") :=
  vectorize_raises_of_unresolved_collection [("user_id", .dict [("user_id", "u1")])] [] []
    [⟨"text", ⟨1, "doc.pdf", "", "", false⟩⟩] "r1" (some "u1") rfl rfl

/-! ## Claim C3: theorems -/

/-- A store with one user owning one rag whose collection `"rag_r1"` holds
one embedded document in the vector database. -/
def c3StateBefore : AppState :=
  { us := [("u1", { vector_store_id := "vs1",
                    collections := [("r1", "rag_r1")],
                    rags := [("r1", { name := some "Test",
                                      collection_name := some "rag_r1" })] })],
    db := [("rag_r1", [⟨"hello", ⟨1, "doc.pdf", "", "", false⟩⟩])] }

/-- C3 counterexample: deleting workspace `"r1"` succeeds, yet its vector
collection `"rag_r1"` is still present in the vector database afterwards —
nothing in the delete flow calls `delete_collection`. -/
theorem c3_collection_survives_delete :
    (deleteRagFlow c3StateBefore "u1" "r1").2 = true ∧
    alLookup "rag_r1" (deleteRagFlow c3StateBefore "u1" "r1").1.db =
      some [⟨"hello", ⟨1, "doc.pdf", "", "", false⟩⟩] ∧
    ¬alLookup "rag_r1" (deleteRagFlow c3StateBefore "u1" "r1").1.db = none := by
  refine ⟨rfl, rfl, by decide⟩

/-- C3 (amended): a successful delete removes the workspace's entries from
the user store's `rags` and `collections` dicts — while leaving the vector
database untouched — and a subsequent search against that workspace
resolves no collection name, so it returns the single "no collection"
result rather than stale data.  (`hnr`/`hnc` state that the dict keys are
unique, which every genuine Python dict satisfies.) -/
theorem c3_delete_then_search_no_collection (st : AppState) (uid rid : String)
    (ud : UserData) (hu : alLookup uid st.us = some ud)
    (hnr : (ud.rags.map Prod.fst).Nodup) (hnc : (ud.collections.map Prod.fst).Nodup) :
    (deleteRagFlow st uid rid).2 = true ∧
    (deleteRagFlow st uid rid).1.db = st.db ∧
    (∀ env : SearchEnv, env.store = (deleteRagFlow st uid rid).1.us →
      env.embedRes = .ok () →
      get_logged_user_id env.session = .ok (some uid) →
      currentRagOf env.session = some rid →
      search_documents env = .ok [noCollectionResult (some rid)]) := by
  have hflow : deleteRagFlow st uid rid =
      (AppState.mk (alInsert uid
        (UserData.mk ud.vector_store_id (alErase rid ud.collections)
          (alErase rid ud.rags)) st.us) st.db, true) := by
    simp [deleteRagFlow, dev_delete_rag, remove_rag_from_user_store, hu]
  refine ⟨by rw [hflow], by rw [hflow], ?_⟩
  · intro env hstore hembed hsession hrag
    have hstore' : env.store = alInsert uid
        (UserData.mk ud.vector_store_id (alErase rid ud.collections)
          (alErase rid ud.rags)) st.us := by
      rw [hstore, hflow]
    have hresolve : get_collection_name env.store (some uid) (some rid) = none := by
      rw [hstore']
      simp only [get_collection_name, alLookup_alInsert_self]
      rw [alLookup_alErase_self rid ud.rags hnr, alLookup_alErase_self rid ud.collections hnc]
    have := search_no_collection_branch env (some uid) hsession hembed
      (by rw [hrag, hresolve]; rfl)
    rwa [hrag] at this

/-- C3 witness: the amended theorem applied to the concrete state — the
delete succeeds, the database is unchanged, and a concrete follow-up
search for workspace `"r1"` returns the single "no collection" result. -/
theorem c3_delete_then_search_no_collection_witness :
    (deleteRagFlow c3StateBefore "u1" "r1").2 = true ∧
    (deleteRagFlow c3StateBefore "u1" "r1").1.db = c3StateBefore.db ∧
    search_documents
        { session := [("user_id", .dict [("user_id", "u1")]), ("current_rag", .str "r1")],
          store := (deleteRagFlow c3StateBefore "u1" "r1").1.us,
          db := c3StateBefore.db, embedRes := .ok (), clientRes := .ok (),
          simSearchRes := .ok [] } =
      .ok [noCollectionResult (some "r1")] := by
  have h := c3_delete_then_search_no_collection c3StateBefore "u1" "r1"
    { vector_store_id := "vs1", collections := [("r1", "rag_r1")],
      rags := [("r1", { name := some "Test", collection_name := some "rag_r1" })] }
    rfl (by decide) (by decide)
  exact ⟨h.1, h.2.1, h.2.2 _ rfl rfl rfl rfl⟩

/-! ## Claim C4: theorems -/

/-- The store after the same user creates two workspaces that share the
display name `"Test"` (distinct rag ids `"r1"`, `"r2"`, distinct generated
collection names `"rag_r1"`, `"rag_r2"`). -/
def c4StoreTwoRags : UserStore :=
  (dev_create_rag (dev_create_rag [] "u1" "Test" none "r1" "vs1").1
    "u1" "Test" none "r2" "vs2").1

/-- C4 (code bug evaluation): the two workspaces are distinct and their
registered collection names differ (`"rag_r1"` vs `"rag_r2"`), yet
`get_collection_name` resolves the SAME collection name `"Test"` for both,
because it returns the rag's display name whenever the `name` key exists
and only falls back to the `collections` dict otherwise. -/
theorem c4_distinct_workspaces_same_collection :
    ("r1" : String) ≠ "r2" ∧
    get_collection_name c4StoreTwoRags (some "u1") (some "r1") = some "Test" ∧
    get_collection_name c4StoreTwoRags (some "u1") (some "r2") = some "Test" ∧
    (∃ ud, alLookup "u1" c4StoreTwoRags = some ud ∧
      alLookup "r1" ud.collections = some "rag_r1" ∧
      alLookup "r2" ud.collections = some "rag_r2") := by
  refine ⟨by decide, rfl, rfl, ?_⟩
  exact ⟨_, rfl, rfl, rfl⟩

/-! ## Citation extraction (`src/backend/src/utils.py`,
`extract_sources_from_response`, and
`src/backend/src/agents/swarm_workflow.py`, `extract_rag_sources`)

The pattern `\[([^\]]+\.(?:pdf|docx|doc|txt)), page (\d+)\]` matches a
bracket, a nonempty run of non-bracket characters ending in one of the
four extensions, the literal `", page "`, a nonempty digit run and the
closing bracket.  Because neither group may contain the closing
delimiter, a match starting at an opening delimiter must end at the FIRST
closing delimiter after it, and the greedy first group takes the largest
split of the enclosed content; `re.findall` scans left to right and
resumes after each match.  The parenthesized pattern is identical with
`(`/`)` as delimiters. -/

/-- The literal `", page "` of the citation patterns. -/
def pageLit : List Char := (", page ").data

/-- Whether `g` matches `[^x]+\.(?:pdf|docx|doc|txt)`: it ends in one of
the four extensions with at least one character before the dot (the
delimiter exclusion holds by construction of the enclosed content). -/
def extSuffixOk (g : List Char) : Bool :=
  (List.isSuffixOf (".pdf").data g && g.length > 4) ||
  (List.isSuffixOf (".docx").data g && g.length > 5) ||
  (List.isSuffixOf (".doc").data g && g.length > 4) ||
  (List.isSuffixOf (".txt").data g && g.length > 4)

/-- Whether the enclosed content `content` decomposes at position `k` as
`group1 ++ ", page " ++ digits`, with `group1 = content.take k` ending in a
valid extension and a nonempty all-digit tail. -/
def decompAt (content : List Char) (k : Nat) : Bool :=
  ((content.drop k).take 7 = pageLit) &&
  ((content.drop k).drop 7 ≠ []) &&
  ((content.drop k).drop 7).all Char.isDigit &&
  extSuffixOk (content.take k)

/-- The greedy group-1 split: the largest valid decomposition position, if
any (the regex engine backtracks from the longest group 1 downwards). -/
def findSplitIdx (content : List Char) : Option Nat :=
  (List.range (content.length + 1)).reverse.find? (fun k => decompAt content k)

/-- Split a character list at the first occurrence of `ch`, returning the
parts before and after it. -/
def splitAtFirst (ch : Char) : List Char → Option (List Char × List Char)
  | [] => none
  | c :: rest =>
    if c = ch then some ([], rest)
    else
      match splitAtFirst ch rest with
      | none => none
      | some (b, a) => some (c :: b, a)

/-- The rendered source `f"{document}, page {page}"` for a decomposition
of the enclosed content at `k`. -/
def renderCitation (content : List Char) (k : Nat) : List Char :=
  content.take k ++ pageLit ++ (content.drop k).drop 7

/-- The `re.findall` scan for one citation pattern with delimiters
`oc`/`cc`: at each opening delimiter, take the content up to the first
closing delimiter; if it decomposes, emit the citation and resume after
the closing delimiter, else resume at the next character.  `fuel` bounds
the recursion by the remaining input length (it never runs out: every
recursive call shortens the input by at least one character). -/
def scanAux (oc cc : Char) : Nat → List Char → List (List Char)
  | 0, _ => []
  | _, [] => []
  | fuel + 1, c :: rest =>
    if c = oc then
      match splitAtFirst cc rest with
      | none => scanAux oc cc fuel rest
      | some (content, after) =>
        match findSplitIdx content with
        | some k => renderCitation content k :: scanAux oc cc fuel after
        | none => scanAux oc cc fuel rest
    else scanAux oc cc fuel rest

/-- All matches of one citation pattern over `s`, in scan order. -/
def scanCitations (oc cc : Char) (s : List Char) : List (List Char) :=
  scanAux oc cc s.length s

/-- Embedding of `extract_sources_from_response` (`utils.py`): first every
bracketed citation in scan order, then every parenthesized citation in
scan order (the source runs `re.findall` for the bracket pattern, appends
all its matches, and only then does the same for the parenthesis
pattern). -/
def extract_sources_from_response (response : String) : List String :=
  (scanCitations '[' ']' response.data).map String.mk ++
    (scanCitations '(' ')' response.data).map String.mk

/-- Embedding of `extract_rag_sources` (`swarm_workflow.py`): the bracket
pattern only. -/
def extract_rag_sources (response : String) : List String :=
  (scanCitations '[' ']' response.data).map String.mk

/-- Index of the first occurrence of `pat` in a character list. -/
def indexOfSub (pat : List Char) : List Char → Option Nat
  | [] => if pat = [] then some 0 else none
  | c :: rest =>
    if List.isPrefixOf pat (c :: rest) then some 0
    else (indexOfSub pat rest).map (· + 1)

/-! ## Claim C6: theorems -/

/-- C6 counterexample: when a parenthesized citation precedes a bracketed
one in the text, the extractor still lists the bracketed one first — the
output is NOT in order of appearance: the parenthesized form occurs at
index 0 and the bracketed form at index 24, yet the bracketed citation
heads the result. -/
theorem c6_order_not_preserved :
    extract_sources_from_response "(notes.txt, page 2) and [report.pdf, page 4]" =
      ["report.pdf, page 4", "notes.txt, page 2"] ∧
    indexOfSub ("(notes.txt, page 2)").data
      ("(notes.txt, page 2) and [report.pdf, page 4]").data = some 0 ∧
    indexOfSub ("[report.pdf, page 4]").data
      ("(notes.txt, page 2) and [report.pdf, page 4]").data = some 24 := by
  refine ⟨?_, by decide, by decide⟩
  decide

/-- C6 (amended): the extractor recognizes both the bracketed and the
parenthesized form for the four extensions, and returns all bracketed
citations (in their order of appearance) followed by all parenthesized
citations (in their order of appearance) — so the order of appearance is
preserved within each form but not across forms.  On the specification's
example the bracketed citation precedes the parenthesized one, so the
result is the stated list. -/
theorem c6_both_forms_bracket_first :
    extract_sources_from_response "... see [report.pdf, page 4] and (notes.txt, page 2) ..." =
      ["report.pdf, page 4", "notes.txt, page 2"] ∧
    extract_sources_from_response "see [a.pdf, page 1]." = ["a.pdf, page 1"] ∧
    extract_sources_from_response "see (b.txt, page 12)." = ["b.txt, page 12"] ∧
    (∀ r : String, extract_sources_from_response r =
      (scanCitations '[' ']' r.data).map String.mk ++
        (scanCitations '(' ')' r.data).map String.mk) := by
  refine ⟨?_, ?_, ?_, fun r => rfl⟩ <;> decide

/-! ## Chat source extraction (`src/backend/main.py`, `chat_with_rag`
lines 452-477) -/

/-- The number of parameters `extract_rag_sources` declares
(`def extract_rag_sources(response: str)`). -/
def extract_rag_sources_paramCount : Nat := 1

/-- Python call semantics for `extract_rag_sources(documents,
request.message)`: two positional arguments against a one-parameter
function raise `TypeError` before the callee's body runs; with matching
arity the body would run. -/
def callExtractRagSourcesWith2Args (message : String) : Except String (List String) :=
  if extract_rag_sources_paramCount = 2 then .ok (extract_rag_sources message)
  else .error "TypeError: extract_rag_sources() takes 1 positional argument but 2 were given"

/-- The source-extraction step of the chat endpoint: the two-argument call
inside `try`, with the `except` clause resetting `sources` to `[]`. -/
def chatExtractSources (documents : List Chunk) (message : String) : List String :=
  match callExtractRagSourcesWith2Args message with
  | .ok s => s
  | .error _ => []

/-! ## Claim C10 theorem -/

/-- C10: every chat request that reaches the source-extraction step gets
`sources = []`: the call passes two arguments to the one-parameter
`extract_rag_sources`, so it always raises `TypeError`, the handler
catches it, and the empty list is returned — whatever the documents and
the message are. -/
theorem c10_chat_sources_always_empty (documents : List Chunk) (message : String) :
    chatExtractSources documents message = [] := rfl

/-! ## Claim C5: amended theorem and witness -/

theorem splitOnChar_no_sep (sep : Char) (l : List Char) (h : ∀ c ∈ l, c ≠ sep) :
    splitOnChar sep l = [l] := by
  induction l with
  | nil => rfl
  | cons c rest ih =>
    have hrest : splitOnChar sep rest = [rest] :=
      ih (fun x hx => h x (List.mem_cons_of_mem c hx))
    simp only [splitOnChar, hrest, if_neg (h c (by simp))]

/-- A separator-free nonempty text is returned whole by the modelled
fixed-width splitter, whatever the chunk size. -/
theorem characterSplitter_no_sep (cs co : Nat) (text : String) (hne : text ≠ "")
    (h : ∀ c ∈ text.data, c ≠ ' ') : characterSplitter cs co text = [text] := by
  unfold characterSplitter
  rw [splitOnChar_no_sep ' ' text.data h]
  show mergeFrags cs co [] (List.filter (fun s => s ≠ "") [text]) = [text]
  have hfilter : List.filter (fun s => s ≠ "") [text] = [text] := by simp [hne]
  rw [hfilter]
  simp [mergeFrags, joinSp]

/-- C5 (amended): `split_text` does not exempt error records from the
splitter — it converts every record, error records included, carrying the
`error` flag and the `source`/`page`/`path`/`url` metadata onto each
emitted chunk, and passes the whole list to the strategy's splitter.  An
error record therefore surfaces as EXACTLY ONE chunk with its content
unsplit only when the splitter returns its content whole — for the
modelled fixed-width strategy this holds whenever the content has no
separator, whatever the chunk size — while a longer splittable error
record is divided into several chunks (each still flagged as an error). -/
theorem c5_error_records_feed_the_splitter :
    (∀ (splitter : String → List String) (docs : List PageRec) (c : LCDoc),
      c ∈ split_text splitter docs →
      ∃ d ∈ docs, c.metadata = ⟨d.page, d.source, d.path, d.url, d.error⟩ ∧
        c.pageContent ∈ splitter d.content) ∧
    (∀ (cs co : Nat) (d : PageRec), d.error = true → d.content ≠ "" →
      (∀ ch ∈ d.content.data, ch ≠ ' ') →
      split_text (characterSplitter cs co) [d] =
        [⟨d.content, ⟨d.page, d.source, d.path, d.url, true⟩⟩]) := by
  constructor
  · intro splitter docs c hc
    unfold split_text at hc
    by_cases hempty : (docs.map toLCDoc).isEmpty
    · rw [if_pos hempty] at hc
      simp at hc
    · rw [if_neg hempty] at hc
      rw [List.mem_flatMap] at hc
      obtain ⟨ld, hld, hcmem⟩ := hc
      rw [List.mem_map] at hld
      obtain ⟨d, hd, rfl⟩ := hld
      rw [List.mem_map] at hcmem
      obtain ⟨t, ht, rfl⟩ := hcmem
      exact ⟨d, hd, rfl, ht⟩
  · intro cs co d herr hne hnosep
    unfold split_text
    rw [if_neg (by simp)]
    show (characterSplitter cs co (toLCDoc d).pageContent).map
        (fun t => (⟨t, (toLCDoc d).metadata⟩ : LCDoc)) ++ [] = _
    show (characterSplitter cs co d.content).map
        (fun t => (⟨t, (toLCDoc d).metadata⟩ : LCDoc)) ++ [] = _
    rw [characterSplitter_no_sep cs co d.content hne hnosep]
    simp [toLCDoc, herr]

/-- C5 witness: a space-free error record passes through as exactly one
unsplit, error-flagged chunk, and the generic part applies to the chunk it
produces. -/
theorem c5_error_records_feed_the_splitter_witness :
    split_text (characterSplitter 1000 200)
        [{ content := "Erreur_extraction", page := 0, source := "err.pdf", error := true }] =
      [⟨"Erreur_extraction", ⟨0, "err.pdf", "", "", true⟩⟩] ∧
    ∃ d ∈ ([⟨"Erreur_extraction", 0, "err.pdf", "", "", true⟩] : List PageRec),
      (⟨"Erreur_extraction", ⟨0, "err.pdf", "", "", true⟩⟩ : LCDoc).metadata =
          ⟨d.page, d.source, d.path, d.url, d.error⟩ ∧
        (⟨"Erreur_extraction", ⟨0, "err.pdf", "", "", true⟩⟩ : LCDoc).pageContent ∈
          characterSplitter 1000 200 d.content := by
  have h2 := c5_error_records_feed_the_splitter.2 1000 200
    { content := "Erreur_extraction", page := 0, source := "err.pdf", error := true }
    rfl (by decide) (by decide)
  refine ⟨h2, ?_⟩
  exact c5_error_records_feed_the_splitter.1 (characterSplitter 1000 200)
    ([⟨"Erreur_extraction", 0, "err.pdf", "", "", true⟩] : List PageRec)
    ⟨"Erreur_extraction", ⟨0, "err.pdf", "", "", true⟩⟩ (by rw [h2]; simp)
